import Mathlib

/-!
Shallow embedding of the Geektrust "education programme" billing engine
(`src/geektrust.js`) and verification of its specification.

Modelling conventions:
* JS numbers occurring in the engine are modelled as `ℚ`; the one place the
  code can manufacture an infinity (the `reduce(Math.min, Infinity)` fold in
  `calculateMinimumDiscountableProgrammeCost`) is modelled with the dedicated
  type `JsNum`, which has explicit `inf`/`ninf` points, so that the sentinel
  is represented faithfully rather than erased.
* JS strings in the command layer are modelled as `List Char`;
  `toLowerCase`/`toUpperCase` become `Char.toLower`/`Char.toUpper` maps.
* `ADD_PROGRAMME` quantities are `parseInt`ed integers, modelled as `Int`
  (the model covers every integer result of parsing; a non-numeric token,
  which `parseInt` turns into NaN, is outside the numeric model).
* A thrown JS exception (which crashes the run, since nothing catches it)
  is modelled as `none` in an `Option`-valued result.
* The cart object's mutable fields become a record threaded explicitly; each
  `calculateX` method returns the pair (returned value, updated cart), since
  the source both returns the value and caches it on `this`.
* `enrollmentStrategy` and `proMembershipStrategy` each have exactly one
  concrete implementation (`DefaultEnrollmentStrategy`,
  `ProMembershipDiscount`), installed in `main` and only ever re-installed
  with the same implementation, so they are modelled as the corresponding
  functions rather than as record fields.
-/

/-- The `ProgrammeType` lookup object of the source: exactly the three keys
`CERTIFICATION`, `DEGREE`, `DIPLOMA`; any other index yields `undefined`,
modelled as `UNKNOWN`. -/
inductive ProgrammeType where
  | CERTIFICATION
  | DEGREE
  | DIPLOMA
  | UNKNOWN
deriving DecidableEq, BEq, Repr

/-- A JS number of the billing engine: a rational, or one of the two
floating-point infinities (`Infinity` is the seed of the minimum fold in
`calculateMinimumDiscountableProgrammeCost`). -/
inductive JsNum where
  | fin (q : ℚ)
  | inf
  | ninf
deriving DecidableEq, Repr

/-- `Math.min(acc, x)` where the second argument is a finite number
(it is always `programme.getSingleCost()` in the source). -/
def jmin : JsNum → ℚ → JsNum
  | .fin m, x => .fin (min m x)
  | .inf, x => .fin x
  | .ninf, _ => .ninf

/-- Subtraction `t - d` of a possibly infinite number `d` from a finite
number `t` (the shape of `totalBeforeDiscount - this.discount`). -/
def jsub : ℚ → JsNum → JsNum
  | t, .fin d => .fin (t - d)
  | _, .inf => .ninf
  | _, .ninf => .inf

/-- `class Programme`: an immutable (type, quantity) pair. -/
structure Programme where
  type : ProgrammeType
  quantity : Int
deriving DecidableEq, Repr

/-- `Programme.getSingleCost`. -/
def Programme.getSingleCost (p : Programme) : ℚ :=
  match p.type with
  | .CERTIFICATION => 3000
  | .DEGREE => 5000
  | .DIPLOMA => 2500
  | .UNKNOWN => 0

/-- `Programme.getCost`. -/
def Programme.getCost (p : Programme) : ℚ :=
  p.getSingleCost * (p.quantity : ℚ)

/-- `Programme.getDiscountRate`. -/
def Programme.getDiscountRate (p : Programme) : ℚ :=
  match p.type with
  | .CERTIFICATION => (0.02 : ℚ)
  | .DEGREE => (0.03 : ℚ)
  | .DIPLOMA => (0.01 : ℚ)
  | .UNKNOWN => 0

-- Constants of the source.

def PRO_MEMBERSHIP_FEE : ℚ := 200

def MIN_DISCOUNTABLE_QUANTITY : Int := 4

def DEFAULT_ENROLLMENT_FEE_THRESHOLD : ℚ := (6666.0 : ℚ)

def DEFAULT_ENROLLMENT_FEE : ℚ := 500

/-- The concrete `DiscountStrategy` subclasses. -/
inductive DiscountStrategy where
  | B4G1Discount
  | DealG20Discount
  | DealG5Discount
deriving DecidableEq, Repr

/-- The `calculateDiscount` methods of the three `DiscountStrategy`
subclasses (`B4G1Discount` returns 0; the two percentage deals return
`beforeDiscount * rate` when `beforeDiscount >= 0`, else 0). -/
def DiscountStrategy.calculateDiscount : DiscountStrategy → ℚ → ℚ
  | .B4G1Discount, _ => 0
  | .DealG20Discount, b => if b ≥ 0 then b * (0.20 : ℚ) else 0
  | .DealG5Discount, b => if b ≥ 0 then b * (0.05 : ℚ) else 0

/-- `DefaultEnrollmentStrategy.calculateEnrollmentFee`. -/
def DefaultEnrollmentStrategy.calculateEnrollmentFee (totalCost : ℚ) : ℚ :=
  if totalCost < DEFAULT_ENROLLMENT_FEE_THRESHOLD then DEFAULT_ENROLLMENT_FEE else 0

/-- `ProMembershipDiscount.calculateDiscount`: sum of
`rate × cost` over the programme list. -/
def ProMembershipDiscount.calculateDiscount (programmes : List Programme) : ℚ :=
  programmes.foldl (fun sum p => sum + p.getDiscountRate * p.getCost) 0

/-- `class GeekdemyCart`: the mutable fields of the cart object.  The cached
numeric fields (`subtotal`, `discount`, `enrollmentFee`,
`proMembershipDiscount`) are part of the state because the source reads them
back (e.g. `calculateDiscount` uses `this.subtotal`). -/
structure GeekdemyCart where
  programmes : List Programme
  discountStrategy : DiscountStrategy
  proMembershipFee : ℚ
  subtotal : ℚ
  discount : JsNum
  enrollmentFee : ℚ
  proMembershipDiscount : ℚ
  appliedCoupon : Option (List Char)
deriving DecidableEq, Repr

namespace GeekdemyCart

/-- `GeekdemyCart.addProgramme`. -/
def addProgramme (c : GeekdemyCart) (p : Programme) : GeekdemyCart :=
  { c with programmes := c.programmes ++ [p] }

/-- `GeekdemyCart.addProMembershipFee`. -/
def addProMembershipFee (c : GeekdemyCart) : GeekdemyCart :=
  { c with proMembershipFee := PRO_MEMBERSHIP_FEE }

/-- `GeekdemyCart.calculateSubtotal`: computes the reduce, caches it in
`this.subtotal` and returns it. -/
def calculateSubtotal (c : GeekdemyCart) : ℚ × GeekdemyCart :=
  let s := c.programmes.foldl (fun sum p => sum + p.getCost) 0
  (s, { c with subtotal := s })

/-- `GeekdemyCart.calculateProMembershipDiscount`: recomputes (and caches)
the membership discount only when `proMembershipFee > 0`; always returns the
cached field. -/
def calculateProMembershipDiscount (c : GeekdemyCart) : ℚ × GeekdemyCart :=
  if c.proMembershipFee > 0 then
    let d := ProMembershipDiscount.calculateDiscount c.programmes
    (d, { c with proMembershipDiscount := d })
  else
    (c.proMembershipDiscount, c)

/-- `GeekdemyCart.isDiscountableProgramme`:
`['CERTIFICATION', 'DEGREE', 'DIPLOMA'].includes(type)` (the
`type !== null` conjunct is true for every value the cart ever stores,
including `undefined`, i.e. `UNKNOWN`). -/
def isDiscountableProgramme (type : ProgrammeType) : Bool :=
  [ProgrammeType.CERTIFICATION, ProgrammeType.DEGREE, ProgrammeType.DIPLOMA].contains type

/-- `GeekdemyCart.totalDiscountableQuantity`. -/
def totalDiscountableQuantity (c : GeekdemyCart) : Int :=
  (c.programmes.filter (fun p => isDiscountableProgramme p.type)).foldl
    (fun sum p => sum + p.quantity) 0

/-- `GeekdemyCart.calculateMinimumDiscountableProgrammeCost`:
`reduce(Math.min, Infinity)` over the single costs of the discountable
programmes. -/
def calculateMinimumDiscountableProgrammeCost (c : GeekdemyCart) : JsNum :=
  (c.programmes.filter (fun p => isDiscountableProgramme p.type)).foldl
    (fun minCost p => jmin minCost p.getSingleCost) .inf

/-- `GeekdemyCart.calculateDiscount`: bulk override when the discountable
quantity reaches the threshold, otherwise the installed strategy applied to
the cached `subtotal + enrollmentFee + proMembershipFee −
proMembershipDiscount`; the result is cached in `this.discount` and
returned. -/
def calculateDiscount (c : GeekdemyCart) : JsNum × GeekdemyCart :=
  if c.totalDiscountableQuantity ≥ MIN_DISCOUNTABLE_QUANTITY then
    let d := c.calculateMinimumDiscountableProgrammeCost
    (d, { c with discount := d })
  else
    let beforeDiscount :=
      c.subtotal + c.enrollmentFee + c.proMembershipFee - c.proMembershipDiscount
    let d := JsNum.fin (c.discountStrategy.calculateDiscount beforeDiscount)
    (d, { c with discount := d })

/-- `GeekdemyCart.calculateEnrollmentFee` (the installed strategy is always
`DefaultEnrollmentStrategy`); reads the cached `this.subtotal`. -/
def calculateEnrollmentFee (c : GeekdemyCart) : ℚ × GeekdemyCart :=
  let f := DefaultEnrollmentStrategy.calculateEnrollmentFee c.subtotal
  (f, { c with enrollmentFee := f })

/-- `GeekdemyCart.calculateTotalFare`: recomputes the discount by the same
rule as `calculateDiscount` (caching it) and returns
`totalBeforeDiscount - this.discount`. -/
def calculateTotalFare (c : GeekdemyCart) : JsNum × GeekdemyCart :=
  let totalBeforeDiscount :=
    c.subtotal + c.enrollmentFee + c.proMembershipFee - c.proMembershipDiscount
  if c.totalDiscountableQuantity ≥ MIN_DISCOUNTABLE_QUANTITY then
    let d := c.calculateMinimumDiscountableProgrammeCost
    (jsub totalBeforeDiscount d, { c with discount := d })
  else
    let d := JsNum.fin (c.discountStrategy.calculateDiscount totalBeforeDiscount)
    (jsub totalBeforeDiscount d, { c with discount := d })

end GeekdemyCart

-- The command layer (`processCommand` and the handlers below it).

/-- JS `String.prototype.toLowerCase` on a command token. -/
def jsToLowerCase (s : List Char) : List Char := s.map Char.toLower

/-- JS `String.prototype.toUpperCase` on a command token. -/
def jsToUpperCase (s : List Char) : List Char := s.map Char.toUpper

/-- `applyOtherCoupon`: looks the lower-cased token up in the
`discountStrategies` object; a hit installs the strategy and records the
upper-cased token as the applied coupon; a miss is a no-op.  When the
`APPLY_COUPON` command carried no argument the token is `undefined` and
`coupon.toLowerCase()` throws a `TypeError`, crashing the run (`none`). -/
def applyOtherCoupon (cart : GeekdemyCart) (coupon : Option (List Char)) :
    Option GeekdemyCart :=
  match coupon with
  | none => none
  | some s =>
    let key := jsToLowerCase s
    if key = "deal_g20".toList then
      some { cart with
        discountStrategy := .DealG20Discount
        appliedCoupon := some (jsToUpperCase s) }
    else if key = "deal_g5".toList then
      some { cart with
        discountStrategy := .DealG5Discount
        appliedCoupon := some (jsToUpperCase s) }
    else
      some cart

/-- `applyCoupon`: `count` is the global running item counter, `tokens` the
whitespace-split command line (so `tokens.length = 2` means exactly one
argument after `APPLY_COUPON`). -/
def applyCoupon (cart : GeekdemyCart) (count : Int) (tokens : List (List Char)) :
    Option GeekdemyCart :=
  if cart.appliedCoupon = none ∧ count ≥ MIN_DISCOUNTABLE_QUANTITY ∧ tokens.length = 2 then
    some { cart with appliedCoupon := some "B4G1".toList }
  else if cart.appliedCoupon = none then
    applyOtherCoupon cart tokens[1]?
  else
    some cart

/-- `applyProMembershipCoupon`: recomputes the membership discount, re-installs
the (unique) `ProMembershipDiscount` strategy, and sets the flat fee. -/
def applyProMembershipCoupon (cart : GeekdemyCart) : GeekdemyCart :=
  (cart.calculateProMembershipDiscount).2.addProMembershipFee

/-- The `ProgrammeType[tokens[1]]` lookup in `addProgramme`: the three known
keys, everything else `undefined` (`UNKNOWN`). -/
def lookupProgrammeType (tok : List Char) : ProgrammeType :=
  if tok = "CERTIFICATION".toList then .CERTIFICATION
  else if tok = "DEGREE".toList then .DEGREE
  else if tok = "DIPLOMA".toList then .DIPLOMA
  else .UNKNOWN

/-- The whole run state: the cart plus the global mutable `count`. -/
structure ProgState where
  cart : GeekdemyCart
  count : Int
deriving DecidableEq, Repr

/-- `addProgramme` (the command handler, for a well-formed three-token
command): bumps the global counter by the parsed quantity unconditionally
and appends the new `Programme`. -/
def stepAddProgramme (st : ProgState) (kindTok : List Char) (quantity : Int) :
    ProgState :=
  { cart := st.cart.addProgramme ⟨lookupProgrammeType kindTok, quantity⟩
    count := st.count + quantity }

/-- A parsed command line, following the interface grammar: `ADD_PROGRAMME`
with a kind token and a parsed integer quantity, `PRO_MEMBERSHIP`,
`APPLY_COUPON` with an optional name token, `PRINT_BILL`, or anything else
(unrecognized commands and malformed `ADD_PROGRAMME` lines, all ignored by
`processCommand`). -/
inductive Command where
  | addProgramme (kindTok : List Char) (quantity : Int)
  | proMembership
  | applyCoupon (arg : Option (List Char))
  | printBill
  | unknown
deriving DecidableEq, Repr

/-- `processCommand`: dispatch on `tokens[0]`.  `none` models a thrown
exception (which kills the run). -/
def processCommand (st : ProgState) : Command → Option ProgState
  | .addProgramme kindTok quantity => some (stepAddProgramme st kindTok quantity)
  | .proMembership => some { st with cart := applyProMembershipCoupon st.cart }
  | .applyCoupon arg =>
    (applyCoupon st.cart st.count ("APPLY_COUPON".toList :: arg.toList)).map
      (fun c => { st with cart := c })
  | .printBill => some st
  | .unknown => some st

/-- The cart built at the top of `main`: empty programme list, `B4G1Discount`
installed as the default strategy, every numeric field `0`, no coupon. -/
def initialCart : GeekdemyCart :=
  { programmes := []
    discountStrategy := .B4G1Discount
    proMembershipFee := 0
    subtotal := 0
    discount := .fin 0
    enrollmentFee := 0
    proMembershipDiscount := 0
    appliedCoupon := none }

/-- The initial run state: fresh cart, global counter `0`. -/
def initialState : ProgState := ⟨initialCart, 0⟩

/-- Running a command list from a given state; a crash (`none`) aborts the
rest of the run. -/
def runFrom (st : ProgState) : List Command → Option ProgState
  | [] => some st
  | cmd :: rest => (processCommand st cmd).bind (fun st' => runFrom st' rest)

/-- A whole run: the command list applied to the initial state. -/
def runCommands (cmds : List Command) : Option ProgState :=
  runFrom initialState cmds

/-- The six values emitted by `printBill`, in source order. -/
structure BillOutput where
  subTotal : ℚ
  totalProDiscount : ℚ
  proMembershipFee : ℚ
  enrollmentFee : ℚ
  couponLabel : Option (List Char)
  couponDiscount : JsNum
  total : JsNum
deriving DecidableEq, Repr

/-- `printBill`: the six `console.log` lines, each forcing the corresponding
`calculate` method in source order (each of which mutates the cart's cached
fields); returns the outputs and the cart as left behind. -/
def printBill (c : GeekdemyCart) : BillOutput × GeekdemyCart :=
  let r1 := c.calculateSubtotal
  let r2 := r1.2.calculateProMembershipDiscount
  let fee := r2.2.proMembershipFee
  let r3 := r2.2.calculateEnrollmentFee
  let label := r3.2.appliedCoupon
  let r4 := r3.2.calculateDiscount
  let r5 := r4.2.calculateTotalFare
  ({ subTotal := r1.1
     totalProDiscount := r2.1
     proMembershipFee := fee
     enrollmentFee := r3.1
     couponLabel := label
     couponDiscount := r4.1
     total := r5.1 }, r5.2)

/-! ### Helper lemmas -/

theorem foldl_add_eq_add_sum {α M : Type} [AddCommMonoid M] (f : α → M) :
    ∀ (l : List α) (a : M), l.foldl (fun s x => s + f x) a = a + (l.map f).sum := by
  intro l
  induction l with
  | nil => intro a; simp
  | cons x t ih => intro a; simp [List.foldl_cons, ih, add_assoc]

theorem foldl_jmin_fin (l : List Programme) :
    ∀ m : ℚ, ∃ r : ℚ,
      l.foldl (fun acc p => jmin acc p.getSingleCost) (.fin m) = .fin r ∧
      (r = m ∨ ∃ p ∈ l, r = p.getSingleCost) ∧ r ≤ m ∧
      ∀ p ∈ l, r ≤ p.getSingleCost := by
  induction l with
  | nil => intro m; exact ⟨m, rfl, Or.inl rfl, le_refl m, by simp⟩
  | cons p t ih =>
    intro m
    obtain ⟨r, hfold, hmem, hle, hall⟩ := ih (min m p.getSingleCost)
    refine ⟨r, ?_, ?_, ?_, ?_⟩
    · simpa [jmin] using hfold
    · rcases hmem with h | ⟨q, hq, hrq⟩
      · rcases min_choice m p.getSingleCost with hc | hc
        · exact Or.inl (h.trans hc)
        · exact Or.inr ⟨p, List.mem_cons_self p t, h.trans hc⟩
      · exact Or.inr ⟨q, List.mem_cons_of_mem p hq, hrq⟩
    · exact hle.trans (min_le_left _ _)
    · intro q hq
      rcases List.mem_cons.mp hq with h | h
      · exact h ▸ hle.trans (min_le_right _ _)
      · exact hall q h

theorem foldl_jmin_inf {l : List Programme} (h : l ≠ []) :
    ∃ r : ℚ,
      l.foldl (fun acc p => jmin acc p.getSingleCost) .inf = .fin r ∧
      (∃ p ∈ l, r = p.getSingleCost) ∧
      ∀ p ∈ l, r ≤ p.getSingleCost := by
  match l with
  | [] => exact absurd rfl h
  | p :: t =>
    obtain ⟨r, hfold, hmem, hle, hall⟩ := foldl_jmin_fin t p.getSingleCost
    refine ⟨r, ?_, ?_, ?_⟩
    · simpa [jmin] using hfold
    · rcases hmem with h | ⟨q, hq, hrq⟩
      · exact ⟨p, List.mem_cons_self p t, h⟩
      · exact ⟨q, List.mem_cons_of_mem p hq, hrq⟩
    · intro q hq
      rcases List.mem_cons.mp hq with h | h
      · exact h ▸ hle
      · exact hall q h

theorem discountable_filter_ne_nil {c : GeekdemyCart}
    (h : c.totalDiscountableQuantity ≥ MIN_DISCOUNTABLE_QUANTITY) :
    c.programmes.filter (fun p => GeekdemyCart.isDiscountableProgramme p.type) ≠ [] := by
  intro hnil
  unfold GeekdemyCart.totalDiscountableQuantity at h
  rw [hnil] at h
  simp [MIN_DISCOUNTABLE_QUANTITY] at h

/-- Under a successful `applyOtherCoupon`, every cart field except
`discountStrategy` and `appliedCoupon` is unchanged. -/
theorem applyOtherCoupon_fields (c : GeekdemyCart) (coupon : Option (List Char))
    (c' : GeekdemyCart) (h : applyOtherCoupon c coupon = some c') :
    c'.programmes = c.programmes ∧ c'.proMembershipFee = c.proMembershipFee ∧
    c'.subtotal = c.subtotal ∧ c'.discount = c.discount ∧
    c'.enrollmentFee = c.enrollmentFee ∧
    c'.proMembershipDiscount = c.proMembershipDiscount := by
  cases coupon with
  | none => simp [applyOtherCoupon] at h
  | some s =>
    unfold applyOtherCoupon at h
    dsimp only at h
    split at h
    · injection h with h2
      subst h2
      exact ⟨rfl, rfl, rfl, rfl, rfl, rfl⟩
    · split at h
      · injection h with h2
        subst h2
        exact ⟨rfl, rfl, rfl, rfl, rfl, rfl⟩
      · injection h with h2
        subst h2
        exact ⟨rfl, rfl, rfl, rfl, rfl, rfl⟩

/-- Under a successful `applyCoupon`, every cart field except
`discountStrategy` and `appliedCoupon` is unchanged. -/
theorem applyCoupon_fields (c : GeekdemyCart) (cnt : Int) (ts : List (List Char))
    (c' : GeekdemyCart) (h : applyCoupon c cnt ts = some c') :
    c'.programmes = c.programmes ∧ c'.proMembershipFee = c.proMembershipFee ∧
    c'.subtotal = c.subtotal ∧ c'.discount = c.discount ∧
    c'.enrollmentFee = c.enrollmentFee ∧
    c'.proMembershipDiscount = c.proMembershipDiscount := by
  unfold applyCoupon at h
  split at h
  · injection h with h2
    subst h2
    exact ⟨rfl, rfl, rfl, rfl, rfl, rfl⟩
  · split at h
    · exact applyOtherCoupon_fields c _ c' h
    · injection h with h2
      subst h2
      exact ⟨rfl, rfl, rfl, rfl, rfl, rfl⟩

/-- Claim C3 (status: code bug in the source).  The spec claims that an
`APPLY_COUPON` command carrying no coupon token is silently ignored when no
coupon is applied yet; in the source this very case reaches
`applyOtherCoupon(cart, undefined)`, which evaluates
`coupon.toLowerCase()` on `undefined` and throws a `TypeError`, crashing the
run.  The theorem evaluates the embedded code on exactly that input: the
result is the crash value, not a no-op. -/
theorem claim_C3 : processCommand initialState (Command.applyCoupon none) = none := by
  decide

/-- Claim C6: once `appliedCoupon` is set, every later `APPLY_COUPON`
command is a no-op — the cart (in particular both the coupon label and the
selected discount strategy) is returned unchanged, whatever the counter and
the tokens are. -/
theorem claim_C6 (c : GeekdemyCart) (count : Int) (tokens : List (List Char))
    (lbl : List Char) (h : c.appliedCoupon = some lbl) :
    applyCoupon c count tokens = some c := by
  simp [applyCoupon, h]

/-- Witness for C6 at a concrete cart that already carries the `B4G1`
label: a further `APPLY_COUPON DEAL_G20` leaves it untouched. -/
theorem claim_C6_witness :
    applyCoupon { initialCart with appliedCoupon := some "B4G1".toList } 9
        ["APPLY_COUPON".toList, "DEAL_G20".toList] =
      some { initialCart with appliedCoupon := some "B4G1".toList } :=
  claim_C6 _ 9 _ _ rfl

/-- Claim C9: the enrollment fee computed from a subtotal is `500` exactly
when the subtotal is strictly below `6666`, else `0`; in particular a
subtotal of exactly `6666` yields fee `0`. -/
theorem claim_C9 (c : GeekdemyCart) :
    ((c.calculateEnrollmentFee).1 = if c.subtotal < (6666 : ℚ) then 500 else 0) ∧
    (c.subtotal = (6666 : ℚ) → (c.calculateEnrollmentFee).1 = 0) := by
  have hth : DEFAULT_ENROLLMENT_FEE_THRESHOLD = (6666 : ℚ) := by
    norm_num [DEFAULT_ENROLLMENT_FEE_THRESHOLD]
  constructor
  · simp [GeekdemyCart.calculateEnrollmentFee,
      DefaultEnrollmentStrategy.calculateEnrollmentFee, hth, DEFAULT_ENROLLMENT_FEE]
  · intro h
    simp [GeekdemyCart.calculateEnrollmentFee,
      DefaultEnrollmentStrategy.calculateEnrollmentFee, hth, h]

/-- Witness for C9 at the boundary subtotal `6666`: the fee is `0`. -/
theorem claim_C9_witness :
    ({ initialCart with subtotal := 6666 } : GeekdemyCart).subtotal = (6666 : ℚ) ∧
    (({ initialCart with subtotal := 6666 } : GeekdemyCart).calculateEnrollmentFee).1 = 0 :=
  ⟨rfl, (claim_C9 _).2 rfl⟩

/-- Claim C7: the membership fee starts at `0`, is `200` after any
`applyProMembershipCoupon` call (so repeated `PRO_MEMBERSHIP` commands keep
it at exactly `200`, never doubling it), every command preserves an
established fee of `200` (membership never reverts), and no command other
than `PRO_MEMBERSHIP` ever changes the fee (so it stays `0` until the first
activation). -/
theorem claim_C7 :
    initialCart.proMembershipFee = 0 ∧
    (∀ c : GeekdemyCart, (applyProMembershipCoupon c).proMembershipFee = 200) ∧
    (∀ (st st' : ProgState) (cmd : Command), processCommand st cmd = some st' →
      st.cart.proMembershipFee = 200 → st'.cart.proMembershipFee = 200) ∧
    (∀ (st st' : ProgState) (cmd : Command), cmd ≠ Command.proMembership →
      processCommand st cmd = some st' →
      st'.cart.proMembershipFee = st.cart.proMembershipFee) := by
  have hfee : ∀ c : GeekdemyCart, (applyProMembershipCoupon c).proMembershipFee = 200 := by
    intro c
    simp [applyProMembershipCoupon, GeekdemyCart.addProMembershipFee, PRO_MEMBERSHIP_FEE]
  have hpres : ∀ (st st' : ProgState) (cmd : Command), cmd ≠ Command.proMembership →
      processCommand st cmd = some st' →
      st'.cart.proMembershipFee = st.cart.proMembershipFee := by
    intro st st' cmd hne h
    cases cmd with
    | addProgramme k q =>
      injection h with h2
      subst h2
      rfl
    | proMembership => exact absurd rfl hne
    | applyCoupon arg =>
      rcases Option.map_eq_some'.mp h with ⟨c', hc', hst'⟩
      subst hst'
      exact (applyCoupon_fields st.cart st.count _ c' hc').2.1
    | printBill =>
      injection h with h2
      subst h2
      rfl
    | unknown =>
      injection h with h2
      subst h2
      rfl
  refine ⟨rfl, hfee, ?_, hpres⟩
  intro st st' cmd h h200
  cases cmd with
  | proMembership =>
    injection h with h2
    subst h2
    exact hfee st.cart
  | addProgramme k q => rw [hpres st st' _ (by simp) h]; exact h200
  | applyCoupon arg => rw [hpres st st' _ (by simp) h]; exact h200
  | printBill => rw [hpres st st' _ (by simp) h]; exact h200
  | unknown => rw [hpres st st' _ (by simp) h]; exact h200

/-- Witness for C7: activating membership twice from the initial state keeps
the fee at exactly `200`. -/
theorem claim_C7_witness :
    (applyProMembershipCoupon (applyProMembershipCoupon initialCart)).proMembershipFee =
      200 :=
  claim_C7.2.1 (applyProMembershipCoupon initialCart)

/-- Claim C5: with no coupon applied yet, an `APPLY_COUPON` command sets the
label to `B4G1` while leaving every other cart field (in particular the
selected discount strategy) unchanged exactly when the global running item
counter is at least `4` and the command carried an argument — whatever that
argument is; and the two counters are asymmetric: an added programme always
bumps the running counter by its quantity (even for an unknown kind), while
it contributes to the discountable quantity only when its kind is one of the
three known kinds. -/
theorem claim_C5 :
    (∀ (c : GeekdemyCart) (count : Int) (arg : Option (List Char)),
      c.appliedCoupon = none →
      (applyCoupon c count ("APPLY_COUPON".toList :: arg.toList) =
          some { c with appliedCoupon := some "B4G1".toList } ↔
        (count ≥ 4 ∧ arg.isSome = true))) ∧
    (∀ (st : ProgState) (kindTok : List Char) (q : Int),
      (stepAddProgramme st kindTok q).count = st.count + q ∧
      (stepAddProgramme st kindTok q).cart.totalDiscountableQuantity =
        st.cart.totalDiscountableQuantity +
          (if GeekdemyCart.isDiscountableProgramme (lookupProgrammeType kindTok) then q
           else 0)) := by
  constructor
  · intro c count arg hnone
    constructor
    · intro heq
      cases arg with
      | none =>
        exfalso
        simp [applyCoupon, hnone, applyOtherCoupon, Option.toList] at heq
      | some s =>
        by_cases hc : count ≥ MIN_DISCOUNTABLE_QUANTITY
        · exact ⟨hc, rfl⟩
        · exfalso
          have hcond : ¬(c.appliedCoupon = none ∧ count ≥ MIN_DISCOUNTABLE_QUANTITY ∧
              ("APPLY_COUPON".toList :: (some s : Option (List Char)).toList).length = 2) := by
            intro hh
            exact hc hh.2.1
          have hidx : ("APPLY_COUPON".toList :: (some s : Option (List Char)).toList)[1]? =
              some s := rfl
          simp only [applyCoupon] at heq
          rw [if_neg hcond, if_pos hnone, hidx] at heq
          unfold applyOtherCoupon at heq
          dsimp only at heq
          split at heq
          · rename_i hkey
            injection heq with h2
            have hup := congrArg GeekdemyCart.appliedCoupon h2
            simp only at hup
            have h8 : s.length = 8 := by
              have := congrArg List.length hkey
              simpa [jsToLowerCase] using this
            have h4 : s.length = 4 := by
              have := congrArg List.length (Option.some.inj hup)
              simpa [jsToUpperCase] using this
            rw [h8] at h4
            exact absurd h4 (by decide)
          · split at heq
            · rename_i hkey
              injection heq with h2
              have hup := congrArg GeekdemyCart.appliedCoupon h2
              simp only at hup
              have h7 : s.length = 7 := by
                have := congrArg List.length hkey
                simpa [jsToLowerCase] using this
              have h4 : s.length = 4 := by
                have := congrArg List.length (Option.some.inj hup)
                simpa [jsToUpperCase] using this
              rw [h7] at h4
              exact absurd h4 (by decide)
            · injection heq with h2
              have hup := congrArg GeekdemyCart.appliedCoupon h2
              simp only at hup
              rw [hnone] at hup
              exact Option.noConfusion hup
    · rintro ⟨hc, hs⟩
      cases arg with
      | none => simp at hs
      | some s =>
        have hcond : c.appliedCoupon = none ∧ count ≥ MIN_DISCOUNTABLE_QUANTITY ∧
            ("APPLY_COUPON".toList :: (some s : Option (List Char)).toList).length = 2 :=
          ⟨hnone, hc, rfl⟩
        simp only [applyCoupon]
        rw [if_pos hcond]
  · intro st kindTok q
    refine ⟨rfl, ?_⟩
    simp only [GeekdemyCart.totalDiscountableQuantity, stepAddProgramme,
      GeekdemyCart.addProgramme]
    rw [foldl_add_eq_add_sum (fun p : Programme => p.quantity),
      foldl_add_eq_add_sum (fun p : Programme => p.quantity),
      List.filter_append, List.map_append, List.sum_append]
    by_cases hd : GeekdemyCart.isDiscountableProgramme (lookupProgrammeType kindTok)
    · simp [hd]
    · simp [hd]

/-- Witness for C5: from the fresh cart with the counter at `4`, an
`APPLY_COUPON` with an unrecognized argument still installs the `B4G1`
label and changes nothing else. -/
theorem claim_C5_witness :
    initialCart.appliedCoupon = none ∧ ((4 : Int) ≥ 4 ∧
      (some "anything".toList : Option (List Char)).isSome = true) ∧
    applyCoupon initialCart 4
        ("APPLY_COUPON".toList :: (some "anything".toList : Option (List Char)).toList) =
      some { initialCart with appliedCoupon := some "B4G1".toList } :=
  ⟨rfl, ⟨by decide, rfl⟩,
    (claim_C5.1 initialCart 4 (some "anything".toList) rfl).mpr ⟨by decide, rfl⟩⟩

/-- Claim C10: whenever the bulk-override condition holds, the filtered list
of discountable programmes is non-empty, so the `Math.min` fold seeded with
`Infinity` lands on the finite single-unit cost of some discountable
programme actually present, and both the discount and the total are finite —
the `Infinity` sentinel never escapes. -/
theorem claim_C10 (c : GeekdemyCart)
    (h : c.totalDiscountableQuantity ≥ MIN_DISCOUNTABLE_QUANTITY) :
    (∃ p ∈ c.programmes.filter (fun p => GeekdemyCart.isDiscountableProgramme p.type),
      c.calculateMinimumDiscountableProgrammeCost = JsNum.fin p.getSingleCost) ∧
    (∃ q : ℚ, (c.calculateDiscount).1 = JsNum.fin q) ∧
    (∃ q : ℚ, (c.calculateTotalFare).1 = JsNum.fin q) := by
  have hne := discountable_filter_ne_nil h
  obtain ⟨r, hfold, ⟨p, hp, hrp⟩, hall⟩ := foldl_jmin_inf hne
  have hmin : c.calculateMinimumDiscountableProgrammeCost = JsNum.fin r := hfold
  refine ⟨⟨p, hp, by rw [hmin, hrp]⟩, ⟨r, ?_⟩, ?_⟩
  · unfold GeekdemyCart.calculateDiscount
    rw [if_pos h]
    simpa using hmin
  · refine ⟨c.subtotal + c.enrollmentFee + c.proMembershipFee - c.proMembershipDiscount - r, ?_⟩
    unfold GeekdemyCart.calculateTotalFare
    rw [if_pos h]
    dsimp only
    rw [hmin]
    rfl

/-- Concrete witness for C10: four certifications meet the threshold and the
minimum fold returns the finite unit price `3000`. -/
theorem claim_C10_witness :
    ({ initialCart with
        programmes := [⟨.CERTIFICATION, 4⟩] } : GeekdemyCart).totalDiscountableQuantity ≥
      MIN_DISCOUNTABLE_QUANTITY ∧
    ((∃ p ∈ ({ initialCart with
        programmes := [⟨.CERTIFICATION, 4⟩] } : GeekdemyCart).programmes.filter
          (fun p => GeekdemyCart.isDiscountableProgramme p.type),
      ({ initialCart with
        programmes := [⟨.CERTIFICATION, 4⟩] } : GeekdemyCart).calculateMinimumDiscountableProgrammeCost =
        JsNum.fin p.getSingleCost) ∧
    (∃ q : ℚ, (({ initialCart with
        programmes := [⟨.CERTIFICATION, 4⟩] } : GeekdemyCart).calculateDiscount).1 =
        JsNum.fin q) ∧
    (∃ q : ℚ, (({ initialCart with
        programmes := [⟨.CERTIFICATION, 4⟩] } : GeekdemyCart).calculateTotalFare).1 =
        JsNum.fin q)) :=
  ⟨by decide, claim_C10 _ (by decide)⟩

/-- Claim C1: the discount written into the cart by `calculateTotalFare` is
the bulk override exactly when the discountable quantity reaches `4`: in that
case it is the least single-unit price among the discountable programmes
present (a member of that filtered list, below all of them), the same for
every installed discount strategy; otherwise it is the installed strategy's
output on the cached amount before discount. -/
theorem claim_C1 (c : GeekdemyCart) :
    if c.totalDiscountableQuantity ≥ MIN_DISCOUNTABLE_QUANTITY then
      ∃ m : ℚ,
        (c.calculateTotalFare).2.discount = JsNum.fin m ∧
        (∃ p ∈ c.programmes.filter (fun p => GeekdemyCart.isDiscountableProgramme p.type),
          m = p.getSingleCost) ∧
        (∀ p ∈ c.programmes.filter (fun p => GeekdemyCart.isDiscountableProgramme p.type),
          m ≤ p.getSingleCost) ∧
        ∀ s : DiscountStrategy,
          (({ c with discountStrategy := s } : GeekdemyCart).calculateTotalFare).2.discount =
            JsNum.fin m
    else
      (c.calculateTotalFare).2.discount =
        JsNum.fin (c.discountStrategy.calculateDiscount
          (c.subtotal + c.enrollmentFee + c.proMembershipFee - c.proMembershipDiscount)) := by
  by_cases h : c.totalDiscountableQuantity ≥ MIN_DISCOUNTABLE_QUANTITY
  · rw [if_pos h]
    obtain ⟨r, hfold, hmem, hall⟩ := foldl_jmin_inf (discountable_filter_ne_nil h)
    have hmin : c.calculateMinimumDiscountableProgrammeCost = JsNum.fin r := hfold
    refine ⟨r, ?_, hmem, hall, ?_⟩
    · unfold GeekdemyCart.calculateTotalFare
      rw [if_pos h]
      simpa using hmin
    · intro s
      have h' : ({ c with discountStrategy := s } : GeekdemyCart).totalDiscountableQuantity ≥
          MIN_DISCOUNTABLE_QUANTITY := h
      unfold GeekdemyCart.calculateTotalFare
      rw [if_pos h']
      simpa [GeekdemyCart.calculateMinimumDiscountableProgrammeCost] using hmin
  · rw [if_neg h]
    unfold GeekdemyCart.calculateTotalFare
    rw [if_neg h]

/-- The discountable quantity reads only the programme list. -/
theorem totalDiscountableQuantity_mk (c : GeekdemyCart) (ds fee s d ef pmd ac) :
    (GeekdemyCart.mk c.programmes ds fee s d ef pmd ac).totalDiscountableQuantity =
      c.totalDiscountableQuantity := rfl

/-- The minimum-cost fold reads only the programme list. -/
theorem minCost_mk (c : GeekdemyCart) (ds fee s d ef pmd ac) :
    (GeekdemyCart.mk c.programmes ds fee s d ef pmd
        ac).calculateMinimumDiscountableProgrammeCost =
      c.calculateMinimumDiscountableProgrammeCost := rfl

/-- Closed form of one whole `printBill` pass, derived below
(`printBill_spec`): the subtotal fold, the gated membership discount, the
enrollment fee on the fresh subtotal, the discount rule, and the total, all
expressed in the entry state. -/
def billSpec (c : GeekdemyCart) : BillOutput × GeekdemyCart :=
  let S := c.programmes.foldl (fun sum p => sum + p.getCost) 0
  let pmd := if c.proMembershipFee > 0 then ProMembershipDiscount.calculateDiscount c.programmes
             else c.proMembershipDiscount
  let ef := DefaultEnrollmentStrategy.calculateEnrollmentFee S
  let d := if c.totalDiscountableQuantity ≥ MIN_DISCOUNTABLE_QUANTITY then
             c.calculateMinimumDiscountableProgrammeCost
           else JsNum.fin (c.discountStrategy.calculateDiscount
             (S + ef + c.proMembershipFee - pmd))
  (⟨S, pmd, c.proMembershipFee, ef, c.appliedCoupon, d,
      jsub (S + ef + c.proMembershipFee - pmd) d⟩,
   ⟨c.programmes, c.discountStrategy, c.proMembershipFee, S, d, ef, pmd, c.appliedCoupon⟩)

/-- One `printBill` pass equals its closed form. -/
theorem printBill_spec (c : GeekdemyCart) : printBill c = billSpec c := by
  by_cases hf : c.proMembershipFee > 0 <;>
    by_cases hq : c.totalDiscountableQuantity ≥ MIN_DISCOUNTABLE_QUANTITY <;>
      simp [printBill, billSpec, GeekdemyCart.calculateSubtotal,
        GeekdemyCart.calculateProMembershipDiscount, GeekdemyCart.calculateEnrollmentFee,
        GeekdemyCart.calculateDiscount, GeekdemyCart.calculateTotalFare,
        totalDiscountableQuantity_mk, minCost_mk, hf, hq]

/-- Claim C2: within one bill, the printed total equals
`subtotal + enrollmentFee + membershipFee − membershipDiscount − discount`
(with the printed coupon discount as the subtrahend, chosen by the same rule
as `calculateDiscount`: bulk override at the threshold, else the installed
strategy applied to that same amount), and the printed subtotal is the sum
over all items of `unitPrice(kind) × quantity`. -/
theorem claim_C2 (c : GeekdemyCart) :
    ((printBill c).1.total =
      jsub ((printBill c).1.subTotal + (printBill c).1.enrollmentFee +
          (printBill c).1.proMembershipFee - (printBill c).1.totalProDiscount)
        (printBill c).1.couponDiscount) ∧
    ((printBill c).1.subTotal =
      (c.programmes.map (fun p => p.getSingleCost * (p.quantity : ℚ))).sum) ∧
    ((printBill c).1.couponDiscount =
      if c.totalDiscountableQuantity ≥ MIN_DISCOUNTABLE_QUANTITY then
        c.calculateMinimumDiscountableProgrammeCost
      else
        JsNum.fin (c.discountStrategy.calculateDiscount
          ((printBill c).1.subTotal + (printBill c).1.enrollmentFee +
            (printBill c).1.proMembershipFee - (printBill c).1.totalProDiscount))) := by
  rw [printBill_spec]
  dsimp only [billSpec]
  refine ⟨rfl, ?_, rfl⟩
  simpa [Programme.getCost] using
    foldl_add_eq_add_sum (fun p : Programme => p.getCost) c.programmes 0

/-- Counterexample to claim C4 as stated: on the reachable state obtained by
`ADD_PROGRAMME DIPLOMA 2` then `APPLY_COUPON deal_g20`, calling
`calculateDiscount` directly yields `0` (the cached subtotal is still `0`),
while calling it after `calculateSubtotal` and `calculateEnrollmentFee`
yields `1100` — so a compute operation's result does depend on which other
compute calls ran in between. -/
theorem claim_C4_counterexample :
    runCommands [Command.addProgramme "DIPLOMA".toList 2,
        Command.applyCoupon (some "deal_g20".toList)] =
      some ⟨({ initialCart with
          programmes := [⟨.DIPLOMA, 2⟩]
          discountStrategy := .DealG20Discount
          appliedCoupon := some "DEAL_G20".toList }), 2⟩ ∧
    ((({ initialCart with
          programmes := [⟨.DIPLOMA, 2⟩]
          discountStrategy := .DealG20Discount
          appliedCoupon := some "DEAL_G20".toList } : GeekdemyCart).calculateDiscount).1 =
      JsNum.fin 0) ∧
    (({ initialCart with
          programmes := [⟨.DIPLOMA, 2⟩]
          discountStrategy := .DealG20Discount
          appliedCoupon :=
            some "DEAL_G20".toList } : GeekdemyCart).calculateSubtotal.2.calculateEnrollmentFee.2.calculateDiscount.1 =
      JsNum.fin 1100) ∧
    JsNum.fin (0 : ℚ) ≠ JsNum.fin (1100 : ℚ) := by
  refine ⟨by rfl, ?_, ?_, by simp⟩
  · simp only [GeekdemyCart.calculateDiscount, GeekdemyCart.totalDiscountableQuantity,
      GeekdemyCart.isDiscountableProgramme, GeekdemyCart.calculateMinimumDiscountableProgrammeCost,
      MIN_DISCOUNTABLE_QUANTITY, DiscountStrategy.calculateDiscount, initialCart,
      List.filter, List.foldl]
    norm_num
  · simp only [GeekdemyCart.calculateSubtotal, GeekdemyCart.calculateEnrollmentFee,
      GeekdemyCart.calculateDiscount, GeekdemyCart.totalDiscountableQuantity,
      GeekdemyCart.isDiscountableProgramme, GeekdemyCart.calculateMinimumDiscountableProgrammeCost,
      DefaultEnrollmentStrategy.calculateEnrollmentFee, DEFAULT_ENROLLMENT_FEE_THRESHOLD,
      DEFAULT_ENROLLMENT_FEE, MIN_DISCOUNTABLE_QUANTITY, DiscountStrategy.calculateDiscount,
      Programme.getCost, Programme.getSingleCost, initialCart, List.filter, List.foldl]
    norm_num

/-- Claim C4, amended: each compute operation is a deterministic function of
the full cart state including its cached fields, but an individual call's
result may depend on which calculate calls preceded it (they read the
caches); what does hold of the source is that a whole bill pass is stable —
printing the bill again immediately after a print yields exactly the same
six values, from any starting cart state. -/
theorem claim_C4 (c : GeekdemyCart) :
    (printBill ((printBill c).2)).1 = (printBill c).1 := by
  rw [printBill_spec c, printBill_spec]
  by_cases hf : c.proMembershipFee > 0 <;>
    by_cases hq : c.totalDiscountableQuantity ≥ MIN_DISCOUNTABLE_QUANTITY <;>
      simp [billSpec, totalDiscountableQuantity_mk, minCost_mk, hf, hq]

/-- Each command preserves the invariant that the membership discount cache
is `0` while the fee is not yet positive. -/
theorem processCommand_pmd_inv (st st' : ProgState) (cmd : Command)
    (h : processCommand st cmd = some st')
    (hinv : 0 < st.cart.proMembershipFee ∨ st.cart.proMembershipDiscount = 0) :
    0 < st'.cart.proMembershipFee ∨ st'.cart.proMembershipDiscount = 0 := by
  cases cmd with
  | addProgramme k q =>
    injection h with h2
    subst h2
    exact hinv
  | proMembership =>
    injection h with h2
    subst h2
    left
    show (0 : ℚ) < (applyProMembershipCoupon st.cart).proMembershipFee
    have : (applyProMembershipCoupon st.cart).proMembershipFee = 200 := by
      simp [applyProMembershipCoupon, GeekdemyCart.addProMembershipFee, PRO_MEMBERSHIP_FEE]
    rw [this]
    norm_num
  | applyCoupon arg =>
    rcases Option.map_eq_some'.mp h with ⟨c', hc', hst'⟩
    subst hst'
    obtain ⟨-, hfee, -, -, -, hpmd⟩ := applyCoupon_fields st.cart st.count _ c' hc'
    dsimp only
    rw [hfee, hpmd]
    exact hinv
  | printBill =>
    injection h with h2
    subst h2
    exact hinv
  | unknown =>
    injection h with h2
    subst h2
    exact hinv

/-- The cache invariant holds along any run. -/
theorem runFrom_pmd_inv :
    ∀ (cmds : List Command) (st st' : ProgState), runFrom st cmds = some st' →
      (0 < st.cart.proMembershipFee ∨ st.cart.proMembershipDiscount = 0) →
      (0 < st'.cart.proMembershipFee ∨ st'.cart.proMembershipDiscount = 0) := by
  intro cmds
  induction cmds with
  | nil =>
    intro st st' h hinv
    injection h with h2
    subst h2
    exact hinv
  | cons cmd rest ih =>
    intro st st' h hinv
    rcases Option.bind_eq_some.mp h with ⟨st1, h1, h2⟩
    exact ih st1 st' h2 (processCommand_pmd_inv st st1 cmd h1 hinv)

/-- Claim C8: on every reachable state, `calculateProMembershipDiscount`
returns the sum over the items currently in the cart of
`discountRate(kind) × cost(item)` when membership is active
(`proMembershipFee > 0`), and `0` when it is not — the sum is taken over the
item list as it stands at call time, never a snapshot. -/
theorem claim_C8 (cmds : List Command) (st : ProgState)
    (h : runCommands cmds = some st) :
    (st.cart.calculateProMembershipDiscount).1 =
      if st.cart.proMembershipFee > 0 then
        (st.cart.programmes.map (fun p => p.getDiscountRate * p.getCost)).sum
      else 0 := by
  have hinv : 0 < st.cart.proMembershipFee ∨ st.cart.proMembershipDiscount = 0 :=
    runFrom_pmd_inv cmds initialState st h (Or.inr rfl)
  unfold GeekdemyCart.calculateProMembershipDiscount
  by_cases hf : st.cart.proMembershipFee > 0
  · rw [if_pos hf, if_pos hf]
    dsimp only
    simpa [ProMembershipDiscount.calculateDiscount] using
      foldl_add_eq_add_sum (fun p : Programme => p.getDiscountRate * p.getCost)
        st.cart.programmes 0
  · rw [if_neg hf, if_neg hf]
    dsimp only
    rcases hinv with hpos | hpmd
    · exact absurd hpos hf
    · exact hpmd

/-- Witness for C8: activate membership first, add a degree afterwards — the
recomputed membership discount covers the later item. -/
theorem claim_C8_witness :
    runCommands [Command.proMembership, Command.addProgramme "DEGREE".toList 1] =
      some ⟨({ initialCart with
          programmes := [⟨.DEGREE, 1⟩]
          proMembershipFee := 200 }), 1⟩ ∧
    ((({ initialCart with
          programmes := [⟨.DEGREE, 1⟩]
          proMembershipFee := 200 } : GeekdemyCart).calculateProMembershipDiscount).1 =
      if ({ initialCart with
          programmes := [⟨.DEGREE, 1⟩]
          proMembershipFee := 200 } : GeekdemyCart).proMembershipFee > 0 then
        (({ initialCart with
            programmes := [⟨.DEGREE, 1⟩]
            proMembershipFee := 200 } : GeekdemyCart).programmes.map
          (fun p => p.getDiscountRate * p.getCost)).sum
      else 0) :=
  ⟨by decide, claim_C8 [Command.proMembership, Command.addProgramme "DEGREE".toList 1]
    ⟨({ initialCart with
        programmes := [⟨.DEGREE, 1⟩]
        proMembershipFee := 200 }), 1⟩
    (by decide)⟩
